import Mathlib

/-!
# Verification of the math-copy-extension equation core

This file is a shallow embedding, in Lean 4, of the equation
detection/extraction core of the `math-copy-extension` repository
(`src/content.js`), together with theorems settling the frozen claims about
that code.

Modelling conventions:

* JavaScript strings are modelled as Lean `String`/`List Char`; every string
  routine from the source (regex replaces, `trim`, `includes`, counting
  matches) is re-implemented as an executable scanner with JavaScript
  semantics (leftmost, non-overlapping, greedy matching; case-insensitive
  where the source regex carries the `i` flag, restricted to ASCII letters,
  which is all the patterns use).
* The DOM is modelled twice, matching the two independent parts of the code:
  a tree model (`Node`, plus a `Loc` carrying the ancestor chain so that
  `closest` can be evaluated) for the extraction pipeline, and a flat
  indexed model (`Dom`) for the scan/tagging pipeline, where document order
  is index order and `data-katex-processed` marks are a separate set.
* `setTimeout`-driven batch continuation is modelled as immediate
  continuation (the claims are about the final state, not timing).
* The MathJax runtime introspection (`window.MathJax` globals) is external
  runtime state and is modelled as absent (the engine-absent branch of
  `getMathJaxOriginalSource`), which the code degrades from gracefully.
* Browser serialization (`outerHTML`) is modelled as canonical
  re-serialization: `class` attribute first when present, then the other
  attributes in stored order.
-/

/-! ## Character classes (JavaScript `\s`, `trim`, and the explicit classes
    appearing in `cleanMathMLSpacing`) -/

/-- JavaScript whitespace (`\s`, and the character set removed by
`String.prototype.trim`): tab, LF, VT, FF, CR, space, NBSP, and the Unicode
space separators, line/paragraph separators and BOM. -/
def isJsWs (c : Char) : Bool :=
  c = ' ' || c = '\t' || c = '\n' || c = '\x0b' || c = '\x0c' || c = '\r' ||
  c = ' ' || c = ' ' || (' ' ≤ c && c ≤ ' ') ||
  c = ' ' || c = ' ' || c = ' ' || c = ' ' ||
  c = '　' || c = '﻿'

/-- The invisible-spacing class removed globally by `cleanMathMLSpacing`
(step 3 and inside `<mo>` content): zero-width space / non-joiner / joiner
(U+200B..U+200D), BOM (U+FEFF), thin space (U+2009), hair space (U+200A). -/
def isInvisible (c : Char) : Bool :=
  ('​' ≤ c && c ≤ '‍') || c = '﻿' || c = ' ' ||
  c = ' '

/-- The whitespace class of the `<mtext>` removal step: `\s` together with
the zero-width characters. -/
def isWsOrInvisible (c : Char) : Bool := isJsWs c || isInvisible c

/-- The explicit class of the inter-element whitespace steps (6-8) of
`cleanMathMLSpacing`: space, tab, CR, LF and the invisible characters
(note: no FF/VT/NBSP). -/
def isW6 (c : Char) : Bool :=
  c = ' ' || c = '\t' || c = '\r' || c = '\n' || isInvisible c

/-! ## JavaScript string helpers -/

/-- `String.prototype.trim` on a character list. -/
def trimList (l : List Char) : List Char :=
  ((l.dropWhile isJsWs).reverse.dropWhile isJsWs).reverse

/-- `String.prototype.trim`. -/
def jsTrim (s : String) : String := String.mk (trimList s.data)

/-- ASCII-only lowercasing of one character (what `toLowerCase` does on the
ASCII tag names the source compares). -/
def lowChar (c : Char) : Char :=
  if 65 ≤ c.toNat && c.toNat ≤ 90 then Char.ofNat (c.toNat + 32) else c

/-- Case-insensitive character comparison for ASCII letters (the `i` regex
flag on the ASCII patterns of the source). -/
def lowEq (p c : Char) : Bool :=
  p = c || (65 ≤ p.toNat && p.toNat ≤ 90 && p.toNat + 32 = c.toNat) ||
  (65 ≤ c.toNat && c.toNat ≤ 90 && c.toNat + 32 = p.toNat)

/-- ASCII-lowercase a whole string (models `toLowerCase` on tag names). -/
def lowerStr (s : String) : String := String.mk (s.data.map lowChar)

/-- Case-insensitive prefix test (pattern first). -/
def prefixCI : List Char → List Char → Bool
  | [], _ => true
  | _ :: _, [] => false
  | p :: ps, c :: cs => lowEq p c && prefixCI ps cs

/-- Length of the leading run satisfying `p`. -/
def countLeading (p : Char → Bool) (l : List Char) : Nat :=
  (l.takeWhile p).length

/-- Substring test on lists (JavaScript `String.prototype.includes`). -/
def containsL (pat : List Char) : List Char → Bool
  | [] => pat.isEmpty
  | c :: rest => pat.isPrefixOf (c :: rest) || containsL pat rest

/-- `s.includes(pat)`. -/
def containsSub (s pat : String) : Bool := containsL pat.data s.data

/-- Number of non-overlapping occurrences of a (nonempty) pattern, scanning
left to right — the length of `s.match(/pat/g)` in JavaScript. After a
match the next `pat.length - 1` positions are skipped (the `skip`
argument), so matches never overlap. -/
def countOccA (pat : List Char) : List Char → Nat → Nat
  | [], _ => 0
  | _ :: rest, skip + 1 => countOccA pat rest skip
  | c :: rest, 0 =>
    if pat.isPrefixOf (c :: rest) then
      1 + countOccA pat rest (pat.length - 1)
    else countOccA pat rest 0

def countOcc (pat l : List Char) : Nat := countOccA pat l 0

/-- Replace the first occurrence of `pat` by `repl`
(JavaScript `String.prototype.replace` with a plain-string pattern). -/
def replaceFirstL (pat repl : List Char) : List Char → List Char
  | [] => []
  | c :: rest =>
    if pat.isPrefixOf (c :: rest) then
      repl ++ (c :: rest).drop pat.length
    else c :: replaceFirstL pat repl rest

def replaceFirst (s pat repl : String) : String :=
  String.mk (replaceFirstL pat.data repl.data s.data)

/-! ## A generic `replace`-with-`g`-flag scanner

`tryFn` inspects the current suffix; `some (repl, consumed)` means the regex
matches at the current position, consuming `consumed ≥ 1` characters which
are replaced by `repl` (scanning resumes after the consumed characters, as
JavaScript's global replace does). Fuel is the string length, which suffices
because every match consumes at least one character. -/

def replScanF (tryFn : List Char → Option (List Char × Nat)) :
    Nat → List Char → List Char
  | 0, l => l
  | _ + 1, [] => []
  | fuel + 1, c :: rest =>
    match tryFn (c :: rest) with
    | some (repl, consumed) =>
      repl ++ replScanF tryFn fuel ((c :: rest).drop consumed)
    | none => c :: replScanF tryFn fuel rest

def replScan (tryFn : List Char → Option (List Char × Nat))
    (l : List Char) : List Char :=
  replScanF tryFn l.length l

/-- Matcher for a global replace of a literal pattern (case-sensitive). -/
def tryLit (pat repl : List Char) (l : List Char) : Option (List Char × Nat) :=
  if pat.isPrefixOf l && !pat.isEmpty then some (repl, pat.length) else none

def replaceAllLit (s : List Char) (pat repl : List Char) : List Char :=
  replScan (tryLit pat repl) s

/-! ## `EquationProcessor.cleanMathMLSpacing` (src/content.js:727-782)

Each regex replace of the source is one scanner below, applied in source
order. -/

/-- Step 1: `replace(/<mspace[^>]*\/?>/gi, '')` — `[^>]*` is greedy and `/`
is not `>`, so the pattern consumes `<mspace` through the next `>`. -/
def tryMspace (l : List Char) : Option (List Char × Nat) :=
  if prefixCI "<mspace".data l then
    match (l.drop 7).findIdx? (· = '>') with
    | some i => some ([], 7 + i + 1)
    | none => none
  else none

/-- Step 2: `replace(/<mtext[^>]*>[\s​-‍﻿  ]*<\/mtext>/gi, '')`. -/
def tryMtext (l : List Char) : Option (List Char × Nat) :=
  if prefixCI "<mtext".data l then
    match (l.drop 6).findIdx? (· = '>') with
    | some i =>
      let after := l.drop (6 + i + 1)
      let k := countLeading isWsOrInvisible after
      if prefixCI "</mtext>".data (after.drop k) then
        some ([], 6 + i + 1 + k + 8)
      else none
    | none => none
  else none

/-- Step 3: `replace(/[​-‍﻿  ]/g, '')`. -/
def removeInvisible (l : List Char) : List Char :=
  l.filter (fun c => !isInvisible c)

/-- The deterministic tail of the two `<mpadded>` patterns, starting right
after the `width` keyword: `\s*=\s*["']` then (for `zero`) `0[^"']*["']`
or (for the em form) `([0-9.]+)em["']` — returns the consumed length from
this point together with the captured digit group for the em form. -/
def mpaddedValueTail (zero : Bool) (m : List Char) :
    Option (Nat × List Char) :=
  let k1 := countLeading isJsWs m
  match (m.drop k1).head? with
  | some e =>
    if e = '=' then
      let m2 := m.drop (k1 + 1)
      let k2 := countLeading isJsWs m2
      match (m2.drop k2).head? with
      | some q =>
        if q = '"' || q = '\'' then
          let m3 := m2.drop (k2 + 1)
          if zero then
            match m3.head? with
            | some z =>
              if z = '0' then
                let m4 := m3.drop 1
                let k3 := countLeading (fun c => c ≠ '"' && c ≠ '\'') m4
                match (m4.drop k3).head? with
                | some q2 =>
                  if q2 = '"' || q2 = '\'' then
                    some (k1 + 1 + k2 + 1 + 1 + k3 + 1, [])
                  else none
                | none => none
              else none
            | none => none
          else
            let digits := m3.takeWhile (fun c => c.isDigit || c = '.')
            let k3 := digits.length
            if 1 ≤ k3 && prefixCI "em".data (m3.drop k3) then
              match (m3.drop (k3 + 2)).head? with
              | some q2 =>
                if q2 = '"' || q2 = '\'' then
                  some (k1 + 1 + k2 + 1 + k3 + 2 + 1, digits)
                else none
              | none => none
            else none
        else none
      | none => none
    else none
  | none => none

/-- Complete an `<mpadded ... width=...>` match whose `width` keyword starts
`j` characters into `body` (all of which must be non-`>`): returns the total
characters consumed from the start of `body` and the captured digits. -/
def mpaddedAt (zero : Bool) (body : List Char) (j : Nat) :
    Option (Nat × List Char) :=
  if (body.take j).all (· ≠ '>') && prefixCI "width".data (body.drop j) then
    match mpaddedValueTail zero (body.drop (j + 5)) with
    | some (t, digits) =>
      match (body.drop (j + 5 + t)).findIdx? (· = '>') with
      | some g => some (j + 5 + t + g + 1, digits)
      | none => none
    | none => none
  else none

/-- Greedy backtracking of the leading `[^>]*`: the rightmost `width` start
that completes a match wins. `j` counts down. -/
def mpaddedSearch (zero : Bool) (body : List Char) :
    Nat → Option (Nat × List Char)
  | 0 => mpaddedAt zero body 0
  | j + 1 =>
    match mpaddedAt zero body (j + 1) with
    | some r => some r
    | none => mpaddedSearch zero body j

/-- JavaScript `parseFloat` on a `[0-9.]+` capture, compared against the
`0.05` threshold of the source; `NaN < 0.05` is false. With integer part
`a` and fractional digits `f` the test `a.f < 0.05` is
`20 * (a * 10^|f| + f) < 10^|f|`. -/
def parseFloatLt005 (digits : List Char) : Bool :=
  let intPart := digits.takeWhile Char.isDigit
  let rest := digits.drop intPart.length
  let fracPart := if rest.head? = some '.' then
      (rest.drop 1).takeWhile Char.isDigit else []
  if intPart.isEmpty && fracPart.isEmpty then false
  else
    let num := (intPart ++ fracPart).foldl
      (fun a c => a * 10 + (c.toNat - 48)) 0
    20 * num < 10 ^ fracPart.length

/-- Step 4a: `replace(/<mpadded[^>]*width\s*=\s*["']0[^"']*["'][^>]*>/gi, '')`. -/
def tryMpaddedZero (l : List Char) : Option (List Char × Nat) :=
  if prefixCI "<mpadded".data l then
    let body := l.drop 8
    match mpaddedSearch true body body.length with
    | some (consumed, _) => some ([], 8 + consumed)
    | none => none
  else none

/-- Step 4b: `replace(/<mpadded[^>]*width\s*=\s*["']([0-9.]+)em["'][^>]*>/gi, fn)`
where the callback removes the tag when `parseFloat(width) < 0.05` and
otherwise returns the match unchanged. -/
def tryMpaddedEm (l : List Char) : Option (List Char × Nat) :=
  if prefixCI "<mpadded".data l then
    let body := l.drop 8
    match mpaddedSearch false body body.length with
    | some (consumed, digits) =>
      if parseFloatLt005 digits then some ([], 8 + consumed)
      else some (l.take (8 + consumed), 8 + consumed)
    | none => none
  else none

/-- Step 5: `replace(/(<mo[^>]*>)([^<]+)(<\/mo>)/gi, fn)` — the callback
trims the operator content and strips the invisible characters from it,
keeping the captured tags as they appeared. -/
def tryMoContent (l : List Char) : Option (List Char × Nat) :=
  if prefixCI "<mo".data l then
    match (l.drop 3).findIdx? (· = '>') with
    | some i =>
      let openLen := 3 + i + 1
      let rest := l.drop openLen
      let clen := countLeading (· ≠ '<') rest
      if 1 ≤ clen && prefixCI "</mo>".data (rest.drop clen) then
        some (l.take openLen ++ removeInvisible (trimList (rest.take clen)) ++
                (rest.drop clen).take 5,
              openLen + clen + 5)
      else none
    | none => none
  else none

/-- Step 6: `replace(/>[ \t\r\n​-‍﻿  ]+</g, '><')`. -/
def tryGtWsLt : List Char → Option (List Char × Nat)
  | [] => none
  | c :: rest =>
    if c = '>' then
      let k := countLeading isW6 rest
      if 1 ≤ k then
        match (rest.drop k).head? with
        | some d => if d = '<' then some ('>' :: '<' :: [], 1 + k + 1) else none
        | none => none
      else none
    else none

/-- Step 7: `replace(/<\/mo>[ \t\r\n​-‍﻿  ]*</g, '</mo><')`
(case-sensitive). -/
def tryMoClose (l : List Char) : Option (List Char × Nat) :=
  if "</mo>".data.isPrefixOf l then
    let rest := l.drop 5
    let k := countLeading isW6 rest
    match (rest.drop k).head? with
    | some d => if d = '<' then some ("</mo><".data, 5 + k + 1) else none
    | none => none
  else none

/-- The closing-tag alternation of step 8, in source order. -/
def closeTags : List (List Char) :=
  ["</mo>".data, "</mi>".data, "</mn>".data, "</mfrac>".data,
   "</msup>".data, "</msub>".data, "</munder>".data, "</mover>".data,
   "</mrow>".data]

/-- Step 8: `replace(/(<\/mo>|<\/mi>|<\/mn>|<\/mfrac>|<\/msup>|<\/msub>|<\/munder>|<\/mover>|<\/mrow>)[ \t\r\n​-‍﻿  ]*</g, '$1<')`
(case-sensitive). -/
def tryCloseTags (l : List Char) : Option (List Char × Nat) :=
  closeTags.foldr
    (fun tag acc =>
      if tag.isPrefixOf l then
        let rest := l.drop tag.length
        let k := countLeading isW6 rest
        match (rest.drop k).head? with
        | some d =>
          if d = '<' then some (tag ++ ['<'], tag.length + k + 1) else acc
        | none => acc
      else acc)
    none

/-- `EquationProcessor.cleanMathMLSpacing` (src/content.js:727-782): the
eight replaces, composed in source order. -/
def cleanMathMLSpacing (s : String) : String :=
  String.mk <|
    replScan tryCloseTags <|
    replScan tryMoClose <|
    replScan tryGtWsLt <|
    replScan tryMoContent <|
    replScan tryMpaddedEm <|
    replScan tryMpaddedZero <|
    removeInvisible <|
    replScan tryMtext <|
    replScan tryMspace s.data

/-! ## Further `EquationProcessor` string helpers -/

/-- `EquationProcessor.cleanLatex` (src/content.js:704-706):
`latex.replace(/^\$|\$$/, '').trim()` — a non-global replace, so only the
first match of the alternation is removed: the leading `$` if present,
otherwise the trailing `$` if present. -/
def cleanLatexL (l : List Char) : List Char :=
  trimList
    (if l.head? = some '$' then l.tail
     else if l.getLast? = some '$' then l.dropLast
     else l)

def cleanLatex (s : String) : String := String.mk (cleanLatexL s.data)

def mathmlNamespaceDecl : String := "xmlns=\"http://www.w3.org/1998/Math/MathML\""

/-- `EquationProcessor.ensureMathMLNamespace` (src/content.js:708-725). -/
def ensureMathMLNamespace (mathml : String) : String :=
  let out := jsTrim mathml
  if !containsSub out "xmlns=" then
    if "<math".data.isPrefixOf out.data then
      replaceFirst out "<math" ("<math " ++ mathmlNamespaceDecl)
    else
      "<math " ++ mathmlNamespaceDecl ++ ">" ++ out ++ "</math>"
  else out

/-- `EquationProcessor.toSuperscript` character map (src/content.js:686-693);
unmapped characters pass through unchanged. -/
def supChar (c : Char) : Char :=
  if c = '0' then '⁰' else if c = '1' then '¹' else if c = '2' then '²'
  else if c = '3' then '³' else if c = '4' then '⁴' else if c = '5' then '⁵'
  else if c = '6' then '⁶' else if c = '7' then '⁷' else if c = '8' then '⁸'
  else if c = '9' then '⁹' else if c = '+' then '⁺' else if c = '-' then '⁻'
  else if c = '=' then '⁼' else if c = '(' then '⁽' else if c = ')' then '⁾'
  else if c = 'n' then 'ⁿ' else if c = 'i' then 'ⁱ' else c

def toSuperscript (s : String) : String := String.mk (s.data.map supChar)

/-- `EquationProcessor.toSubscript` character map (src/content.js:695-702). -/
def subChar (c : Char) : Char :=
  if c = '0' then '₀' else if c = '1' then '₁' else if c = '2' then '₂'
  else if c = '3' then '₃' else if c = '4' then '₄' else if c = '5' then '₅'
  else if c = '6' then '₆' else if c = '7' then '₇' else if c = '8' then '₈'
  else if c = '9' then '₉' else if c = '+' then '₊' else if c = '-' then '₋'
  else if c = '=' then '₌' else if c = '(' then '₍' else if c = ')' then '₎'
  else c

def toSubscript (s : String) : String := String.mk (s.data.map subChar)

/-! ## `EquationProcessor.convertLatexToMathML` (src/content.js:784-817) -/

/-- Matcher for `\frac{a}{b}` → `<mfrac><mrow>a</mrow><mrow>b</mrow></mfrac>`
(pattern `\\frac\x7b([^}]+)\x7d\x7b([^}]+)\x7d`, global). -/
def tryFrac (l : List Char) : Option (List Char × Nat) :=
  if "\\frac\x7b".data.isPrefixOf l then
    let r1 := l.drop 6
    let a := countLeading (· ≠ '\x7d') r1
    if 1 ≤ a && (r1.drop a).head? = some '\x7d' &&
        (r1.drop (a + 1)).head? = some '\x7b' then
      let r2 := r1.drop (a + 2)
      let b := countLeading (· ≠ '\x7d') r2
      if 1 ≤ b && (r2.drop b).head? = some '\x7d' then
        some ("<mfrac><mrow>".data ++ r1.take a ++ "</mrow><mrow>".data ++
              r2.take b ++ "</mrow></mfrac>".data, 6 + a + 2 + b + 1)
      else none
    else none
  else none

/-- Matcher for `\sqrt{a}` → `<msqrt><mrow>a</mrow></msqrt>`. -/
def trySqrt (l : List Char) : Option (List Char × Nat) :=
  if "\\sqrt\x7b".data.isPrefixOf l then
    let r1 := l.drop 6
    let a := countLeading (· ≠ '\x7d') r1
    if 1 ≤ a && (r1.drop a).head? = some '\x7d' then
      some ("<msqrt><mrow>".data ++ r1.take a ++ "</mrow></msqrt>".data,
            6 + a + 1)
    else none
  else none

/-- The literal command substitutions of `convertLatexToMathML`, in source
order. -/
def latexCommandTable : List (String × String) :=
  [("\\sum", "<mo>∑</mo>"), ("\\int", "<mo>∫</mo>"), ("\\infty", "<mo>∞</mo>"),
   ("\\alpha", "<mi>α</mi>"), ("\\beta", "<mi>β</mi>"),
   ("\\gamma", "<mi>γ</mi>"), ("\\pi", "<mi>π</mi>"),
   ("\\theta", "<mi>θ</mi>"), ("\\lambda", "<mi>λ</mi>"),
   ("\\mu", "<mi>μ</mi>"), ("\\sigma", "<mi>σ</mi>"),
   ("\\phi", "<mi>φ</mi>"), ("\\omega", "<mi>ω</mi>")]

/-- `EquationProcessor.convertLatexToMathML`: the fixed substitution table
applied by global text replacement, then wrapping in a namespaced
`<math><mrow>` when no `<math` is present, then `ensureMathMLNamespace`. -/
def convertLatexToMathML (latex : String) : String :=
  let l := replScan trySqrt (replScan tryFrac latex.data)
  let l := latexCommandTable.foldl
    (fun acc p => replaceAllLit acc p.1.data p.2.data) l
  let l := if containsL "<math".data l then l
    else ("<math " ++ mathmlNamespaceDecl ++ "><mrow>").data ++ l ++
      "</mrow></math>".data
  ensureMathMLNamespace (String.mk l)

/-! ## `validateMathML` (src/content.js:2632-2664) -/

/-- `validateMathML`: the falsy test on the input, the length bounds, the
`<math` / namespace / `</math>` containment tests and the balanced
non-overlapping count of `<math` against `</math>`. -/
def validateMathML (mathml : String) : Bool :=
  if mathml = "" then false
  else if mathml.length = 0 || mathml.length > 1000000 then false
  else if !containsSub mathml "<math" then false
  else
    let hasNamespace :=
      containsSub mathml "xmlns=\"http://www.w3.org/1998/Math/MathML\"" ||
      containsSub mathml "xmlns='http://www.w3.org/1998/Math/MathML'"
    let hasClosingTag := containsSub mathml "</math>"
    let openCount := countOcc "<math".data mathml.data
    let closeCount := countOcc "</math>".data mathml.data
    hasClosingTag && hasNamespace && decide (openCount = closeCount)

/-! ## DOM tree model for the extraction pipeline

A `Node` is an element (tag, class list, attribute list, children) or a text
node. Tags are stored lowercase; the uppercase `tagName` comparisons of the
source (`tagName === 'MATH'`) are modelled against the lowercase tag. A
`Loc` is an element together with its chain of ancestor elements (nearest
first, each carrying its full subtree), which is what `Element.closest`
needs. -/

inductive Node where
  | elem (tag : String) (classes : List String)
      (attrs : List (String × String)) (children : List Node)
  | text (s : String)

def Node.tagOf : Node → String
  | .elem t _ _ _ => t
  | .text _ => "#text"

def Node.classesOf : Node → List String
  | .elem _ cs _ _ => cs
  | .text _ => []

def Node.attrsOf : Node → List (String × String)
  | .elem _ _ as _ => as
  | .text _ => []

def Node.childrenOf : Node → List Node
  | .elem _ _ _ ch => ch
  | .text _ => []

def Node.isElem : Node → Bool
  | .elem _ _ _ _ => true
  | .text _ => false

/-- `classList.contains(c)`. -/
def hasClass (n : Node) (c : String) : Bool := n.classesOf.contains c

/-- `getAttribute(name)`: the attribute's value, or `null` when absent. -/
def getAttr (n : Node) (name : String) : Option String :=
  (n.attrsOf.find? (fun p => p.1 == name)).map (·.2)

/-- `hasAttribute(name)`. -/
def hasAttr (n : Node) (name : String) : Bool := (getAttr n name).isSome

/-- JavaScript `a || b` over nullable strings: the empty string is falsy. -/
def orFalsy (a b : Option String) : Option String :=
  match a with
  | some s => if s = "" then b else some s
  | none => b

/-- Falsiness of a nullable string (`!content`). -/
def isFalsy : Option String → Bool
  | none => true
  | some s => s = ""

/- `textContent`: concatenation of all descendant text. -/
mutual
def textContent : Node → String
  | .text s => s
  | .elem _ _ _ ch => textContentList ch
def textContentList : List Node → String
  | [] => ""
  | n :: ns => textContent n ++ textContentList ns
end

/-- Serialization of the attributes: `class` first when present, then the
stored attributes. -/
def attrsHTML (classes : List String) (attrs : List (String × String)) :
    String :=
  (if classes.isEmpty then ""
   else " class=\"" ++ String.intercalate " " classes ++ "\"") ++
  (attrs.map (fun p => " " ++ p.1 ++ "=\"" ++ p.2 ++ "\"")).foldl
    (· ++ ·) ""

/- `outerHTML`, modelled as canonical re-serialization of the subtree. -/
mutual
def outerHTML : Node → String
  | .text s => s
  | .elem t cs as ch =>
    "<" ++ t ++ attrsHTML cs as ++ ">" ++ outerHTMLList ch ++ "</" ++ t ++ ">"
def outerHTMLList : List Node → String
  | [] => ""
  | n :: ns => outerHTML n ++ outerHTMLList ns
end

/-- `innerHTML`: serialization of the children. -/
def innerHTML (n : Node) : String := outerHTMLList n.childrenOf

/- `querySelector(p)`: first element in pre-order among the *descendants*
(self excluded, as in the DOM) satisfying `p`; text nodes never match. -/
mutual
def qselNode (p : Node → Bool) : Node → Option Node
  | .text _ => none
  | .elem t cs as ch =>
    if p (.elem t cs as ch) then some (.elem t cs as ch)
    else qselList p ch
def qselList (p : Node → Bool) : List Node → Option Node
  | [] => none
  | n :: ns =>
    match qselNode p n with
    | some r => some r
    | none => qselList p ns
end

def qsel (p : Node → Bool) (n : Node) : Option Node := qselList p n.childrenOf

/- `querySelector("A B")` (descendant combinator): first descendant
matching `pTar` having a strict ancestor, within the searched subtree,
matching `pAnc` (ancestors outside the searched subtree are not considered
— a simplification noted in the header; no claim depends on it). -/
mutual
def qselDescNode (pAnc pTar : Node → Bool) (seen : Bool) :
    Node → Option Node
  | .text _ => none
  | .elem t cs as ch =>
    let n := Node.elem t cs as ch
    if seen && pTar n then some n
    else qselDescList pAnc pTar (seen || pAnc n) ch
def qselDescList (pAnc pTar : Node → Bool) (seen : Bool) :
    List Node → Option Node
  | [] => none
  | n :: ns =>
    match qselDescNode pAnc pTar seen n with
    | some r => some r
    | none => qselDescList pAnc pTar seen ns
end

def qselDesc (pAnc pTar : Node → Bool) (n : Node) : Option Node :=
  qselDescList pAnc pTar false n.childrenOf

/-- An element in context: the element and its ancestor elements, nearest
first, each as its full subtree. -/
structure Loc where
  anc : List Node
  el : Node

/-- `Element.closest`, for a predicate selector: self first, then the
ancestors, nearest first. -/
def closestP (p : Node → Bool) (loc : Loc) : Option Node :=
  if p loc.el then some loc.el else loc.anc.find? p

/- `extractTextContent` tree-walker contribution of one visited node
(src/content.js:658-684): text nodes contribute their text; `sup`/`sub`
elements contribute the transliteration of their whole `textContent` (and
their text children are then *also* visited, as the TreeWalker shows both
element and text nodes). -/
mutual
def walkerText : Node → String
  | .text s => s
  | .elem t cs as ch =>
    (if lowerStr t = "sup" then toSuperscript (textContent (.elem t cs as ch))
     else if lowerStr t = "sub" then
       toSubscript (textContent (.elem t cs as ch))
     else "") ++ walkerTextList ch
def walkerTextList : List Node → String
  | [] => ""
  | n :: ns => walkerText n ++ walkerTextList ns
end

/-- `EquationProcessor.extractTextContent`: the TreeWalker starts below the
root (root excluded), and the result is trimmed. -/
def extractTextContent (n : Node) : String :=
  jsTrim (walkerTextList n.childrenOf)

/-! ## `EquationProcessor` extraction pipeline (src/content.js:205-818) -/

/-- The error taxonomy of `ExtensionError` codes raised by the modelled
paths, plus `jsError` for a host TypeError (e.g. calling `closest` on a
text node), which the extraction boundary likewise catches. -/
inductive ExtErr where
  | invalidElement
  | contentTooLarge
  | invalidClipboardContent
  | clipboardUnavailable
  | jsError
deriving DecidableEq

/-- `CONFIG.validFormats`. -/
def validFormats : List String := ["mathml", "latex", "unicode", "asciimath"]

/-- `CONFIG.defaultFormat`. -/
def defaultFormat : String := "mathml"

/-- Lines 212-215: an unknown format is replaced by the default. -/
def resolveFormat (format : String) : String :=
  if validFormats.contains format then format else defaultFormat

/-- `EquationProcessor.getMathJaxOriginalSource` (src/content.js:460-478)
with the `window.MathJax` global absent (external runtime state, see
header): the function returns `null`. -/
def getMathJaxOriginalSource (_container : Node) : Option String := none

/-- `EquationProcessor.extractFromKaTeX` (src/content.js:282-362).
`container` is the `.katex` element. -/
def extractFromKaTeX (container : Node) (format : String) : Option String :=
  if !(container.isElem && hasClass container "katex") then none
  else if format = "latex" then
    let annotEl := qsel (fun n => n.tagOf = "annotation") container
    let fromAnnot : Option String :=
      match annotEl with
      | some a =>
        match orFalsy (some (innerHTML a)) (some (textContent a)) with
        | some t => if jsTrim t ≠ "" then some (cleanLatex t) else none
        | none => none
      | none => none
    match fromAnnot with
    | some r => some r
    | none =>
      match orFalsy (getAttr container "data-latex")
          (orFalsy (getAttr container "data-tex")
            (getAttr container "data-original")) with
      | some lx => if jsTrim lx ≠ "" then some (cleanLatex lx) else none
      | none => none
  else if format = "mathml" then
    let katexMathml := qsel (fun n => hasClass n "katex-mathml") container
    let mathml :=
      match katexMathml with
      | some km => qsel (fun n => n.tagOf = "math") km
      | none => none
    let mathml :=
      match mathml with
      | some m => some m
      | none => qsel (fun n => n.tagOf = "math") container
    match mathml with
    | none => none
    | some m =>
      let s := cleanMathMLSpacing (outerHTML m)
      some (if !containsSub s "xmlns=" then
              replaceFirst s "<math" ("<math " ++ mathmlNamespaceDecl)
            else s)
  else
    -- 'unicode' and the default case: the stored `_katexHtmlElement`
    -- expando (set at scan time to the `.katex-html` inside this container)
    -- or the first `.katex-html` descendant — the same node in this model.
    match qsel (fun n => hasClass n "katex-html") container with
    | some h => some (extractTextContent h)
    | none => none

/-- `EquationProcessor.extractFromMathJax` (src/content.js:364-454). -/
def extractFromMathJax (eq : Loc) (format : String) : Option String :=
  let container :=
    match closestP (fun n => hasClass n "MathJax") eq with
    | some c => some c
    | none =>
      match closestP (fun n => hasClass n "mjx-chtml") eq with
      | some c => some c
      | none => closestP (fun n => hasClass n "mjx-container") eq
  match container with
  | none => none
  | some c =>
    let originalLatex := getMathJaxOriginalSource c
    if format = "latex" then
      match originalLatex with
      | some ol => some (cleanLatex ol)
      | none =>
        match orFalsy (getAttr c "data-latex") (orFalsy (getAttr c "data-tex")
            (orFalsy (getAttr c "data-original")
              (orFalsy (getAttr c "data-mjx-latex")
                (getAttr c "data-original-text")))) with
        | some lx => some (cleanLatex lx)
        | none => some (extractTextContent c)
    else if format = "mathml" then
      let isMath : Node → Bool := fun n => n.tagOf = "math"
      let mathml := qsel isMath c
      let mathml :=
        match mathml with
        | some m => some m
        | none =>
          match qselDesc (fun n => n.tagOf = "mjx-chtml") isMath c with
          | some m => some m
          | none =>
            match qselDesc (fun n => hasClass n "mjx-chtml") isMath c with
            | some m => some m
            | none => qselDesc (fun n => n.tagOf = "mjx-container") isMath c
      let mathml :=
        match mathml with
        | some m => some m
        | none =>
          match qselDesc (fun n => hasClass n "MathJax_SVG") isMath c with
          | some m => some m
          | none =>
            match qselDesc (fun n => hasClass n "MathJax_Display") isMath c with
            | some m => some m
            | none => qselDesc (fun n => n.tagOf = "svg") isMath c
      let mathml :=
        match mathml with
        | some m => some m
        | none => qsel isMath c
      match mathml with
      | none =>
        match originalLatex with
        | some ol =>
          let converted := convertLatexToMathML ol
          if converted ≠ "" then
            some (ensureMathMLNamespace (cleanMathMLSpacing converted))
          else none
        | none => none
      | some m =>
        let s := cleanMathMLSpacing (outerHTML m)
        some (if !containsSub s "xmlns=" then
                replaceFirst s "<math" ("<math " ++ mathmlNamespaceDecl)
              else s)
    else some (extractTextContent c)

/-- `EquationProcessor.extractFromMathML` (src/content.js:582-609). -/
def extractFromMathML (eq : Loc) (format : String) : Option String :=
  let mathElement :=
    if eq.el.tagOf = "math" then some eq.el
    else closestP (fun n => n.tagOf = "math") eq
  match mathElement with
  | none => none
  | some m =>
    if format = "mathml" then
      let s := cleanMathMLSpacing (outerHTML m)
      some (if !containsSub s "xmlns=" then
              replaceFirst s "<math" ("<math " ++ mathmlNamespaceDecl)
            else s)
    else some (extractTextContent m)

/-- The `\\[a-zA-Z]+` half of the LaTeX-likeness test. -/
def hasBackslashCmd : List Char → Bool
  | [] => false
  | [_] => false
  | c :: d :: rest => (c = '\\' && d.isAlpha) || hasBackslashCmd (d :: rest)

def isLineTerm (c : Char) : Bool :=
  c = '\n' || c = '\r' || c = ' ' || c = ' '

/-- After an opening `$`: is there a closing `$` with no line terminator in
between (`.` does not cross lines)? -/
def dollarScan : List Char → Bool
  | [] => false
  | c :: rest =>
    if c = '$' then true else if isLineTerm c then false else dollarScan rest

/-- The `\$.*\$` half of the LaTeX-likeness test. -/
def hasDollarPair : List Char → Bool
  | [] => false
  | c :: rest => (c = '$' && dollarScan rest) || hasDollarPair rest

/-- The `/\\[a-zA-Z]+|\$.*\$/` test of src/content.js:621. -/
def latexLike (s : String) : Bool :=
  hasBackslashCmd s.data || hasDollarPair s.data

/-- `EquationProcessor.extractFromDataAttribute` (src/content.js:611-645). -/
def extractFromDataAttribute (eq : Loc) (format : String) : Option String :=
  let dataMath :=
    orFalsy (getAttr eq.el "data-math")
      ((closestP (fun n => hasAttr n "data-math") eq).bind
        (fun n => getAttr n "data-math"))
  match dataMath with
  | none => none
  | some dm =>
    if dm = "" then none
    else if format = "latex" then some (cleanLatex dm)
    else if format = "mathml" then
      if latexLike dm then
        let m := convertLatexToMathML dm
        if m ≠ "" then some (cleanMathMLSpacing m) else some m
      else if "<math".data.isPrefixOf (jsTrim dm).data then
        some (cleanMathMLSpacing (ensureMathMLNamespace (jsTrim dm)))
      else none
    else some dm

/-- The math-symbol character class of `extractGeneric`
(src/content.js:650). -/
def mathSymbolChars : List Char :=
  ['+', '-', '*', '/', '=', '<', '>', '≤', '≥', '≈', '∫', '∑', '∏', '√',
   '∂', '∆', '∇', '∞', '±', '×', '÷', '∈', '∉', '⊂', '⊃', '∪', '∩', '∀',
   '∃', 'α', 'β', 'γ', 'δ', 'ε', 'ζ', 'η', 'θ', 'ι', 'κ', 'λ', 'μ', 'ν',
   'ξ', 'ο', 'π', 'ρ', 'σ', 'τ', 'υ', 'φ', 'χ', 'ψ', 'ω']

/-- `EquationProcessor.extractGeneric` (src/content.js:647-652). -/
def extractGeneric (n : Node) : Option String :=
  let t := textContent n
  if t.data.any (fun c => mathSymbolChars.contains c) then some t else none

/-- `EquationProcessor.convertToUnicode` (src/content.js:654-656). -/
def convertToUnicode (n : Node) : String := extractTextContent n

/-- The renderer dispatch of `getEquationContent` (src/content.js:217-238):
KaTeX container resolution (self, then a processed `.katex` ancestor, then
any `.katex` ancestor), then MathJax / MathML / data-attribute / generic. -/
def dispatchContent (eq : Loc) (format : String) : Option String :=
  let katexContainer : Option Node :=
    if hasClass eq.el "katex" then some eq.el
    else
      match closestP
          (fun n => hasClass n "katex" && hasAttr n "data-katex-processed")
          eq with
      | some c => some c
      | none => closestP (fun n => hasClass n "katex") eq
  match katexContainer with
  | some c => extractFromKaTeX c format
  | none =>
    if (closestP (fun n => hasClass n "MathJax") eq).isSome ||
        (closestP (fun n => hasClass n "mjx-chtml") eq).isSome ||
        (closestP (fun n => hasClass n "mjx-container") eq).isSome then
      extractFromMathJax eq format
    else if (closestP (fun n => n.tagOf = "math") eq).isSome ||
        eq.el.tagOf = "math" then
      extractFromMathML eq format
    else if (closestP (fun n => hasAttr n "data-math") eq).isSome ||
        hasAttr eq.el "data-math" then
      extractFromDataAttribute eq format
    else extractGeneric eq.el

/-- Lines 217-253 of `getEquationContent`: the dispatch, then the
`convertToUnicode` fallback when no (or falsy) content was found, then the
any-nested-`<math>` fallback for the MathML format. -/
def rawContent (eq : Loc) (format : String) : Option String :=
  let content := dispatchContent eq format
  let content :=
    if isFalsy content then some (convertToUnicode eq.el) else content
  if isFalsy content && format = "mathml" then
    match
      (match qsel (fun n => n.tagOf = "math") eq.el with
       | some m => some m
       | none => closestP (fun n => n.tagOf = "math") eq) with
    | some m => some (cleanMathMLSpacing (ensureMathMLNamespace (outerHTML m)))
    | none => content
  else content

/-- Lines 255-266 of `getEquationContent`: the validation step — a
non-blank trimmed result is size-checked (`CONTENT_TOO_LARGE` above 100000
characters) and returned trimmed; anything else collapses to `null`. -/
def finalizeContent (content : Option String) : Except ExtErr (Option String) :=
  match content with
  | some c =>
    if jsTrim c ≠ "" then
      if (jsTrim c).length > 100000 then .error .contentTooLarge
      else .ok (some (jsTrim c))
    else .ok none
  | none => .ok none

/-- `EquationProcessor.getEquationContent` body (src/content.js:206-266):
everything inside the `try`, as an `Except`. A text node makes the
`closest` calls of the dispatch throw a host `TypeError`, modelled as
`jsError`. -/
def getEquationContentInner (eq : Loc) (format : String) :
    Except ExtErr (Option String) :=
  if !eq.el.isElem then .error .jsError
  else finalizeContent (rawContent eq (resolveFormat format))

/-- The extraction result visible to callers: the `catch` (lines 267-279)
collapses every error to `null`. -/
def getEquationContentPure (eq : Loc) (format : String) : Option String :=
  match getEquationContentInner eq format with
  | .ok v => v
  | .error _ => none

/-- The mutable session counters touched by `getEquationContent`
(`state.errorCount`, `state.maxErrors` — src/content.js:73-74). -/
structure SessionState where
  errorCount : Nat
  maxErrors : Nat

/-- `getEquationContent` with its effect on the session state: the `catch`
increments `state.errorCount` and returns `null` whether or not the counter
exceeds `state.maxErrors` (both branches of lines 274-278 return `null`);
the success path leaves the counter unchanged. -/
def getEquationContentRun (eq : Loc) (format : String) (st : SessionState) :
    Option String × SessionState :=
  match getEquationContentInner eq format with
  | .ok v => (v, st)
  | .error _ => (none, { st with errorCount := st.errorCount + 1 })

/-! ## Clipboard and multi-selection copy (`DOMProcessor`) -/

/-- The validation prologue of `DOMProcessor.copyToClipboard`
(src/content.js:1642-1653): empty/non-string text is
`INVALID_CLIPBOARD_CONTENT`, text above 1,000,000 characters is
`CONTENT_TOO_LARGE`; both are thrown before any capability is tried. The
system write that follows a passed validation is external and modelled as
succeeding. -/
def copyToClipboardGate (text : String) : Except ExtErr Unit :=
  if text = "" then .error .invalidClipboardContent
  else if text.length > 1000000 then .error .contentTooLarge
  else .ok ()

/-- `Array.prototype.join` — `contents.join('\n\n')`. -/
def joinSep (sep : String) : List String → String
  | [] => ""
  | [a] => a
  | a :: rest => a ++ sep ++ joinSep sep rest

/-- `DOMProcessor.clearSelection` (src/content.js:1484-1490): the selection
set is emptied (the visual class removal and notification are chrome). -/
def clearSelection (_sel : List Loc) : List Loc := []

/-- The sequential extraction loop of `copySelectedEquations`
(src/content.js:1449-1454): extract every selected container in order,
keeping the non-null results and threading the session state. -/
def extractSeq (format : String) : List Loc → SessionState →
    List String × SessionState
  | [], st => ([], st)
  | e :: rest, st =>
    let (r, st1) := getEquationContentRun e format st
    let (cs, st2) := extractSeq format rest st1
    match r with
    | some c => (c :: cs, st2)
    | none => (cs, st2)

/-- The outcome of a multi-copy commit: the clipboard payload written (if
any), the selection set afterwards, and the session state. -/
structure CopyOutcome where
  payload : Option String
  selection : List Loc
  state : SessionState

/-- `DOMProcessor.copySelectedEquations` (src/content.js:1442-1482): no-op
on an empty selection; otherwise extract each selected container in order,
join the non-null contents with a blank line, write the joined payload
(whose validation may throw, skipping everything after it including
`clearSelection`), and clear the selection on success. The selection list
models `Array.from(state.selectedEquations)` in insertion order. -/
def copySelectedEquations (sel : List Loc) (format : String)
    (st : SessionState) : CopyOutcome :=
  if sel.isEmpty then ⟨none, sel, st⟩
  else
    let (contents, st1) := extractSeq format sel st
    if contents.isEmpty then ⟨none, sel, st1⟩
    else
      let combined := joinSep "\n\n" contents
      match copyToClipboardGate combined with
      | .ok _ => ⟨some combined, clearSelection sel, st1⟩
      | .error _ => ⟨none, sel, st1⟩

/-! ## Flat DOM model for the scan/tagging pipeline
    (`DOMProcessor.processExistingEquations` / `processBatch` /
    `findMathContainer`, src/content.js:943-1079)

Elements are indexed in document order; `parent` points to the parent
element's index. The `data-katex-processed` marks are kept outside the
structure (they are the only attribute the scan mutates); the static
`data-math` attribute and the classes/tags are structural. -/

structure DNode where
  tag : String
  classes : List String
  dataMath : Bool
  parent : Option Nat

def Dom := List DNode

def dTag (d : Dom) (i : Nat) : Option String := (d.get? i).map DNode.tag

def dHasClass (d : Dom) (i : Nat) (c : String) : Bool :=
  match d.get? i with
  | some n => n.classes.contains c
  | none => false

def dHasDataMath (d : Dom) (i : Nat) : Bool :=
  match d.get? i with
  | some n => n.dataMath
  | none => false

def dParent (d : Dom) (i : Nat) : Option Nat :=
  match d.get? i with
  | some n => n.parent
  | none => none

/-- `Element.closest` on the flat model: self first, then the parent chain,
fuel-bounded by the document size. -/
def closestFuel (d : Dom) (p : Nat → Bool) : Nat → Nat → Option Nat
  | 0, _ => none
  | fuel + 1, i =>
    if p i then some i
    else
      match dParent d i with
      | some par => closestFuel d p fuel par
      | none => none

def closestD (d : Dom) (p : Nat → Bool) (i : Nat) : Option Nat :=
  closestFuel d p (d.length + 1) i

/-- `.MathJax, .mjx-chtml, .mjx-container`. -/
def isMjxD (d : Dom) (i : Nat) : Bool :=
  dHasClass d i "MathJax" || dHasClass d i "mjx-chtml" ||
  dHasClass d i "mjx-container"

/-- `DOMProcessor.findMathContainer` (src/content.js:1044-1079), including
its two dead trailing branches; the only branch that can produce `null` is
the `.katex-html` one. -/
def findMathContainerD (d : Dom) (i : Nat) : Option Nat :=
  if dHasClass d i "katex-html" then
    closestD d (fun j => dHasClass d j "katex") i
  else if dHasClass d i "katex" then some i
  else
    match closestD d (isMjxD d) i with
    | some j => some j
    | none =>
      if dTag d i = some "math" then some i
      else
        match closestD d (fun j => dTag d j = some "math") i with
        | some j => some j
        | none =>
          match closestD d (fun j => dHasClass d j "katex") i with
          | some j => some j
          | none =>
            match closestD d (isMjxD d) i with
            | some j => some j
            | none =>
              match closestD d (fun j => dTag d j = some "math") i with
              | some j => some j
              | none => some i

/-- The evolving scan state: the set of indices carrying the
`data-katex-processed` attribute (mirrored by `state.processedElements`),
and the containers handed to `setupEquation` so far, in order. -/
structure ScanState where
  marks : List Nat
  setups : List Nat

/-- The per-element body of `DOMProcessor.processBatch`
(src/content.js:996-1035): the `.katex-html` branch resolves to the
`.katex` ancestor and marks both element and container; every other element
resolves through `findMathContainer` and marks the container only. An
element or container already marked is skipped. -/
def processElem (d : Dom) (st : ScanState) (i : Nat) : ScanState :=
  if dHasClass d i "katex-html" then
    if st.marks.contains i then st
    else
      match closestD d (fun j => dHasClass d j "katex") i with
      | none => st
      | some j =>
        if st.marks.contains j then st
        else { marks := i :: j :: st.marks, setups := st.setups ++ [j] }
  else
    if st.marks.contains i then st
    else
      match findMathContainerD d i with
      | none => st
      | some j =>
        if st.marks.contains j then st
        else { marks := j :: st.marks, setups := st.setups ++ [j] }

/-- `document.querySelectorAll(sel + ":not([data-katex-processed])")` in
document order: the static part of the selector is `p`. -/
def selectAll (d : Dom) (marks : List Nat) (p : Nat → Bool) : List Nat :=
  (List.range d.length).filter (fun i => p i && !marks.contains i)

/-- One selector phase: query, then process the resulting batch. The
`setTimeout`-chained batches of `processBatch` are modelled as one
synchronous pass over the queried snapshot. -/
def runPhase (d : Dom) (p : Nat → Bool) (st : ScanState) : ScanState :=
  (selectAll d st.marks p).foldl (processElem d) st

def pKatexHtml (d : Dom) (i : Nat) : Bool := dHasClass d i "katex-html"

def pMathJax (d : Dom) (i : Nat) : Bool := dHasClass d i "MathJax"

def pMjxChtml (d : Dom) (i : Nat) : Bool := dHasClass d i "mjx-chtml"

def pMjxContainer (d : Dom) (i : Nat) : Bool := dHasClass d i "mjx-container"

def pMathTag (d : Dom) (i : Nat) : Bool := dTag d i = some "math"

def pDataMath (d : Dom) (i : Nat) : Bool := dHasDataMath d i

/-- The static parts of the five `otherSelectors`
(src/content.js:956-962), in source order. -/
def otherSelectorPreds (d : Dom) : List (Nat → Bool) :=
  [pMathJax d, pMjxChtml d, pMjxContainer d, pMathTag d, pDataMath d]

/-- `DOMProcessor.processExistingEquations` (src/content.js:943-984): the
`.katex-html` phase first, then the five other selector phases, each
querying against the marks left by the previous phases. -/
def processExistingEquationsD (d : Dom) (marks : List Nat) : ScanState :=
  let st0 : ScanState := ⟨marks, []⟩
  let st1 := runPhase d (pKatexHtml d) st0
  (otherSelectorPreds d).foldl (fun st p => runPhase d p st) st1

/-- One full detection scan from a given set of marks: the containers set
up, and the marks afterwards. -/
def scanD (d : Dom) (marks : List Nat) : List Nat × List Nat :=
  let st := processExistingEquationsD d marks
  (st.setups, st.marks)

/-! ## Concrete scenario inputs -/

/-- A KaTeX container with rendered visual output (`.katex-html` holding the
text `x`) but no `annotation` element and no LaTeX source data attribute. -/
def katexBare : Node :=
  .elem "span" ["katex"] []
    [.elem "span" ["katex-html"] [] [.text "x"]]

def locBare : Loc := ⟨[], katexBare⟩

/-- A healthy KaTeX container whose `annotation` element holds the LaTeX
source `x`. -/
def katexAnnot : Node :=
  .elem "span" ["katex"] []
    [.elem "span" ["katex-mathml"] []
      [.elem "math" [] []
        [.elem "semantics" [] []
          [.elem "annotation" [] [("encoding", "application/x-tex")]
            [.text "x"]]]],
     .elem "span" ["katex-html"] [] [.text "x"]]

def locAnnot : Loc := ⟨[], katexAnnot⟩

/-- The `<math>` element of the C3 scenario: its serialization is
`<math xmlns="http://www.w3.org/1998/Math/MathML"><mo> ∫ </mo><mi> x </mi></math>`. -/
def mathC3 : Node :=
  .elem "math" [] [("xmlns", "http://www.w3.org/1998/Math/MathML")]
    [.elem "mo" [] [] [.text " ∫ "], .elem "mi" [] [] [.text " x "]]

def locC3 : Loc := ⟨[], mathC3⟩

def c3Input : String :=
  "<math xmlns=\"http://www.w3.org/1998/Math/MathML\"><mo> ∫ </mo><mi> x </mi></math>"

/-- The output the claim C3 expects (interior whitespace of both `<mo>` and
`<mi>` removed). -/
def c3Claimed : String :=
  "<math xmlns=\"http://www.w3.org/1998/Math/MathML\"><mo>∫</mo><mi>x</mi></math>"

/-- The output the code actually produces (only `<mo>` content is trimmed;
the identifier's interior whitespace survives). -/
def c3Actual : String :=
  "<math xmlns=\"http://www.w3.org/1998/Math/MathML\"><mo>∫</mo><mi> x </mi></math>"

/-! ## Claims C1-C3 -/

/-- Claim C1 (code_bug evidence). The claim says: a KaTeX container with no
`annotation` element and no LaTeX data attribute yields `null` for the
LaTeX format, never text derived from the rendered output. The KaTeX
adapter itself honours this (`extractFromKaTeX` returns `none`), but the
`convertToUnicode` fallback of `getEquationContent` (src/content.js:240-243)
then extracts the rendered visual text `x` and returns it, contradicting
the in-code policy comment (src/content.js:313-314) and the spec. -/
theorem C1_latex_fallback_returns_rendered_text :
    extractFromKaTeX katexBare "latex" = none ∧
    getEquationContentPure locBare "latex" = some "x" := by
  constructor <;> rfl

/-- Claim C2 (code_bug evidence). The claim says extraction short-circuits
to `null` once `state.errorCount` exceeds `state.maxErrors = 10`. In the
code the counter is only consulted inside the `catch` branch — where both
sides of the test return `null` anyway — so a later successful call still
runs the full extraction and returns content: here, with
`errorCount = 11 > maxErrors = 10`, extraction still yields the LaTeX
source `x` and leaves the counter untouched, and detection
(`scanD`) takes no error state at all. -/
theorem C2_error_cap_does_not_gate_extraction :
    (⟨11, 10⟩ : SessionState).maxErrors < (⟨11, 10⟩ : SessionState).errorCount ∧
    (getEquationContentRun locAnnot "latex" ⟨11, 10⟩).1 = some "x" ∧
    (getEquationContentRun locAnnot "latex" ⟨11, 10⟩).2.errorCount = 11 := by
  refine ⟨by decide, ?_, ?_⟩ <;> rfl

/-- Claim C3, counterexample: on the element whose serialization is the C3
scenario input, MathML extraction does *not* return the claimed string with
`<mi>x</mi>` — the spacing cleanup trims only `<mo>` content, and `<mi> x </mi>`
keeps its interior whitespace (which is not inter-tag whitespace either). -/
theorem C3_counterexample :
    outerHTML mathC3 = c3Input ∧
    extractFromMathML locC3 "mathml" ≠ some c3Claimed := by
  constructor
  · rfl
  · intro h
    rw [show extractFromMathML locC3 "mathml" = some c3Actual from rfl] at h
    exact absurd (Option.some.inj h) (by decide)

/-- Claim C3, amended: MathML extraction of that element, after spacing
cleanup, yields `<math xmlns="http://www.w3.org/1998/Math/MathML"><mo>∫</mo><mi> x </mi></math>`
— the operator-internal padding is removed and the namespace is preserved,
but the interior whitespace of the identifier element is preserved. -/
theorem C3_amended_mo_trimmed_mi_kept :
    extractFromMathML locC3 "mathml" = some c3Actual ∧
    cleanMathMLSpacing c3Input = c3Actual := by
  constructor <;> rfl

/-! ## Claim C4: spacing-cleanup idempotence -/

theorem lowEq_lt_false {c : Char} (h : c ≠ '<') : lowEq '<' c = false := by
  unfold lowEq
  have e1 : (decide ('<' = c)) = false := decide_eq_false fun he => h he.symm
  have e2 : (decide (65 ≤ ('<').toNat)) = false := by decide
  have h60 : ('<').toNat = 60 := rfl
  by_cases h65 : 65 ≤ c.toNat
  · have e3 : (decide (c.toNat + 32 = ('<').toNat)) = false :=
      decide_eq_false (by rw [h60]; omega)
    simp [e1, e2, e3]
    omega
  · have e3 : (decide (65 ≤ c.toNat)) = false := decide_eq_false h65
    simp [e1, e2, e3]

theorem prefixCI_head_lt {pat l : List Char} (hp : pat.head? = some '<')
    (h : '<' ∉ l) : prefixCI pat l = false := by
  cases pat with
  | nil => simp at hp
  | cons p ps =>
    have hpe : p = '<' := by simpa using hp
    subst hpe
    cases l with
    | nil => rfl
    | cons c rest =>
      have hc : c ≠ '<' := fun he => h (by simp [he])
      simp [prefixCI, lowEq_lt_false hc]

theorem isPrefixOf_head_lt {pat l : List Char} (hp : pat.head? = some '<')
    (h : '<' ∉ l) : pat.isPrefixOf l = false := by
  by_contra hb
  have hpre : pat <+: l := by
    rw [← List.isPrefixOf_iff_prefix]
    exact eq_true_of_ne_false hb
  obtain ⟨t, rfl⟩ := hpre
  cases pat with
  | nil => simp at hp
  | cons p ps =>
    have hpe : p = '<' := by simpa using hp
    exact h (by simp [hpe])

theorem tryMspace_none {l : List Char} (h : '<' ∉ l) : tryMspace l = none := by
  unfold tryMspace
  rw [prefixCI_head_lt (by decide) h]
  rfl

theorem tryMtext_none {l : List Char} (h : '<' ∉ l) : tryMtext l = none := by
  unfold tryMtext
  rw [prefixCI_head_lt (by decide) h]
  rfl

theorem tryMpaddedZero_none {l : List Char} (h : '<' ∉ l) :
    tryMpaddedZero l = none := by
  unfold tryMpaddedZero
  rw [prefixCI_head_lt (by decide) h]
  rfl

theorem tryMpaddedEm_none {l : List Char} (h : '<' ∉ l) :
    tryMpaddedEm l = none := by
  unfold tryMpaddedEm
  rw [prefixCI_head_lt (by decide) h]
  rfl

theorem tryMoContent_none {l : List Char} (h : '<' ∉ l) :
    tryMoContent l = none := by
  unfold tryMoContent
  rw [prefixCI_head_lt (by decide) h]
  rfl

theorem tryGtWsLt_none {l : List Char} (h : '<' ∉ l) : tryGtWsLt l = none := by
  cases l with
  | nil => rfl
  | cons c rest =>
    unfold tryGtWsLt
    by_cases hc : c = '>'
    · simp only [hc, if_true]
      cases hh : (rest.drop (countLeading isW6 rest)).head? with
      | none => simp [hh]
      | some d =>
        have hd : d ∈ rest :=
          List.drop_subset _ _ (List.mem_of_mem_head? hh)
        have hdne : d ≠ '<' :=
          fun he => h (List.mem_cons_of_mem c (he ▸ hd))
        simp [hh, hdne]
    · simp [hc]

theorem tryMoClose_none {l : List Char} (h : '<' ∉ l) : tryMoClose l = none := by
  unfold tryMoClose
  rw [isPrefixOf_head_lt (by decide) h]
  rfl

theorem tryCloseTags_none {l : List Char} (h : '<' ∉ l) :
    tryCloseTags l = none := by
  have e1 : ("</mo>".data).isPrefixOf l = false :=
    isPrefixOf_head_lt (by decide) h
  have e2 : ("</mi>".data).isPrefixOf l = false :=
    isPrefixOf_head_lt (by decide) h
  have e3 : ("</mn>".data).isPrefixOf l = false :=
    isPrefixOf_head_lt (by decide) h
  have e4 : ("</mfrac>".data).isPrefixOf l = false :=
    isPrefixOf_head_lt (by decide) h
  have e5 : ("</msup>".data).isPrefixOf l = false :=
    isPrefixOf_head_lt (by decide) h
  have e6 : ("</msub>".data).isPrefixOf l = false :=
    isPrefixOf_head_lt (by decide) h
  have e7 : ("</munder>".data).isPrefixOf l = false :=
    isPrefixOf_head_lt (by decide) h
  have e8 : ("</mover>".data).isPrefixOf l = false :=
    isPrefixOf_head_lt (by decide) h
  have e9 : ("</mrow>".data).isPrefixOf l = false :=
    isPrefixOf_head_lt (by decide) h
  unfold tryCloseTags closeTags
  simp only [List.foldr_cons, List.foldr_nil, e1, e2, e3, e4, e5, e6, e7, e8,
    e9, Bool.false_eq_true, if_false]

/-- A scanner whose matcher never fires on `<`-free text is the identity on
`<`-free text, for any fuel. -/
theorem replScanF_id {tryFn : List Char → Option (List Char × Nat)}
    (hnone : ∀ l, '<' ∉ l → tryFn l = none) :
    ∀ (n : Nat) (l : List Char), '<' ∉ l → replScanF tryFn n l = l
  | 0, _, _ => rfl
  | _ + 1, [], _ => rfl
  | n + 1, c :: rest, h => by
    have ht := hnone (c :: rest) h
    simp only [replScanF, ht]
    exact congrArg (c :: ·)
      (replScanF_id hnone n rest (fun hm => h (List.mem_cons_of_mem c hm)))

theorem replScan_id {tryFn : List Char → Option (List Char × Nat)}
    (hnone : ∀ l, '<' ∉ l → tryFn l = none) {l : List Char} (h : '<' ∉ l) :
    replScan tryFn l = l :=
  replScanF_id hnone l.length l h

theorem removeInvisible_no_lt {l : List Char} (h : '<' ∉ l) :
    '<' ∉ removeInvisible l :=
  fun hm => h (List.mem_of_mem_filter hm)

theorem removeInvisible_idem (l : List Char) :
    removeInvisible (removeInvisible l) = removeInvisible l := by
  simp [removeInvisible, List.filter_filter]

/-- On a `<`-free string the whole spacing cleanup reduces to the global
invisible-character removal (step 3); every other step's pattern needs a
`<`. -/
theorem cleanMathMLSpacing_no_lt {s : String} (h : '<' ∉ s.data) :
    cleanMathMLSpacing s = String.mk (removeInvisible s.data) := by
  unfold cleanMathMLSpacing
  rw [replScan_id (fun _ => tryMspace_none) h,
    replScan_id (fun _ => tryMtext_none) h]
  have h3 : '<' ∉ removeInvisible s.data := removeInvisible_no_lt h
  rw [replScan_id (fun _ => tryMpaddedZero_none) h3,
    replScan_id (fun _ => tryMpaddedEm_none) h3,
    replScan_id (fun _ => tryMoContent_none) h3,
    replScan_id (fun _ => tryGtWsLt_none) h3,
    replScan_id (fun _ => tryMoClose_none) h3,
    replScan_id (fun _ => tryCloseTags_none) h3]

def c4Bad : String := "<msp​ace x>"

/-- Claim C4, counterexample: `cleanMathMLSpacing` is not idempotent. In
`"<msp​ace x>"` the zero-width space hides the `<mspace` pattern from
step 1, step 3 then deletes the zero-width space and splices `<mspace x>`
together, and a second application removes that whole tag. -/
theorem C4_counterexample :
    cleanMathMLSpacing c4Bad = "<mspace x>" ∧
    cleanMathMLSpacing (cleanMathMLSpacing c4Bad) = "" ∧
    cleanMathMLSpacing (cleanMathMLSpacing c4Bad) ≠ cleanMathMLSpacing c4Bad := by
  refine ⟨rfl, rfl, ?_⟩
  intro h
  rw [show cleanMathMLSpacing c4Bad = "<mspace x>" from rfl] at h
  exact absurd h (by decide)

/-- Claim C4, amended: the spacing cleanup is idempotent on every input
that contains no `<` character (where it reduces to the invisible-character
filter); on general markup a first application can splice together a new
removable pattern, so idempotence fails (see the counterexample). -/
theorem C4_amended_idempotent_on_lt_free (s : String) (h : '<' ∉ s.data) :
    cleanMathMLSpacing (cleanMathMLSpacing s) = cleanMathMLSpacing s := by
  rw [cleanMathMLSpacing_no_lt h]
  have h2 : '<' ∉ (String.mk (removeInvisible s.data)).data :=
    removeInvisible_no_lt h
  rw [cleanMathMLSpacing_no_lt h2]
  show String.mk (removeInvisible (removeInvisible s.data)) = _
  rw [removeInvisible_idem]

/-- Witness for the amended C4 at the concrete `<`-free input `"a b"`. -/
theorem C4_amended_witness :
    ('<' ∉ ("a b" : String).data) ∧
    cleanMathMLSpacing (cleanMathMLSpacing "a b") =
      cleanMathMLSpacing "a b" :=
  ⟨by decide, C4_amended_idempotent_on_lt_free "a b" (by decide)⟩

/-! ## Claim C5: size bounds -/

/-- A 150,000-character extraction source. -/
def bigExtract : String := String.mk (List.replicate 150000 'x')

/-- A 2,000,000-character clipboard payload. -/
def bigClip : String := String.mk (List.replicate 2000000 'a')

/-- A `[data-math]` element whose attribute holds the oversized content. -/
def locBigDataMath : Loc := ⟨[], .elem "span" [] [("data-math", bigExtract)] []⟩

theorem dropWhile_replicate_of_false {p : Char → Bool} {a : Char}
    (h : p a = false) (n : Nat) :
    List.dropWhile p (List.replicate n a) = List.replicate n a := by
  cases n with
  | zero => rfl
  | succ m => simp [List.replicate_succ, List.dropWhile_cons, h]

theorem trimList_replicate_x (n : Nat) :
    trimList (List.replicate n 'x') = List.replicate n 'x' := by
  unfold trimList
  rw [dropWhile_replicate_of_false (by decide), List.reverse_replicate,
    dropWhile_replicate_of_false (by decide), List.reverse_replicate]

theorem jsTrim_bigExtract : jsTrim bigExtract = bigExtract := by
  show String.mk (trimList (List.replicate 150000 'x')) = _
  rw [trimList_replicate_x]
  rfl

theorem bigExtract_length : bigExtract.length = 150000 := by
  show (List.replicate 150000 'x').length = 150000
  rw [List.length_replicate]

theorem bigClip_length : bigClip.length = 2000000 := by
  show (List.replicate 2000000 'a').length = 2000000
  rw [List.length_replicate]

/-- Claim C5 (confirmed): (1) whenever the content assembled by
`getEquationContent` has trimmed length above 100,000 characters, the
validation step raises `CONTENT_TOO_LARGE` and the caller-visible result is
`null` — the oversized string is never returned; (2) a clipboard write
whose text exceeds 1,000,000 characters throws `CONTENT_TOO_LARGE` before
any write is attempted. Neither path truncates. -/
theorem C5_size_bounds :
    (∀ (eq : Loc) (format c : String),
        eq.el.isElem = true →
        rawContent eq (resolveFormat format) = some c →
        100000 < (jsTrim c).length →
        getEquationContentInner eq format = .error .contentTooLarge ∧
        getEquationContentPure eq format = none) ∧
    (∀ text : String, 1000000 < text.length →
        copyToClipboardGate text = .error .contentTooLarge) := by
  constructor
  · intro eq format c hel hraw hlen
    have hne : jsTrim c ≠ "" := by
      intro he
      rw [he] at hlen
      exact absurd hlen (by decide)
    have hinner : getEquationContentInner eq format = .error .contentTooLarge := by
      unfold getEquationContentInner
      rw [hel]
      simp only [Bool.not_true, Bool.false_eq_true, if_false]
      rw [hraw]
      unfold finalizeContent
      show (if jsTrim c ≠ "" then
              if (jsTrim c).length > 100000 then
                Except.error ExtErr.contentTooLarge
              else Except.ok (some (jsTrim c))
            else Except.ok none) = Except.error ExtErr.contentTooLarge
      rw [if_pos hne, if_pos hlen]
    refine ⟨hinner, ?_⟩
    unfold getEquationContentPure
    rw [hinner]
  · intro text hlen
    have hne : text ≠ "" := by
      intro he
      rw [he] at hlen
      exact absurd hlen (by decide)
    unfold copyToClipboardGate
    simp [hne, hlen]

/-- Witness for C5 at the concrete sizes of the claim: a 150,000-character
extraction result (here a `data-math` source read back verbatim in unicode
format) is rejected and collapses to `null`, and a 2,000,000-character
clipboard payload is rejected as `CONTENT_TOO_LARGE`. -/
theorem C5_size_bounds_witness :
    getEquationContentPure locBigDataMath "unicode" = none ∧
    copyToClipboardGate bigClip = .error .contentTooLarge := by
  constructor
  · refine (C5_size_bounds.1 locBigDataMath "unicode" bigExtract rfl rfl ?_).2
    rw [jsTrim_bigExtract, bigExtract_length]
    decide
  · refine C5_size_bounds.2 bigClip ?_
    rw [bigClip_length]
    decide

/-! ## Claim C6: the MathML validation predicate -/

/-- The validity conditions as the claim states them (refinement target,
worded from the spec): a `<math` open tag, a `</math>` close tag, the
MathML namespace declaration, and equal non-overlapping counts of `<math`
and `</math>` — nothing else. -/
def specValidMathML (s : String) : Bool :=
  containsSub s "<math" && containsSub s "</math>" &&
  (containsSub s "xmlns=\"http://www.w3.org/1998/Math/MathML\"" ||
   containsSub s "xmlns='http://www.w3.org/1998/Math/MathML'") &&
  decide (countOcc "<math".data s.data = countOcc "</math>".data s.data)

theorem string_eq_empty_of_length_zero {s : String} (h : s.length = 0) :
    s = "" := by
  cases s with
  | mk data =>
    cases data with
    | nil => rfl
    | cons c cs => simp [String.length] at h

theorem isPrefixOf_head_ne {pat : List Char} {d c : Char}
    (hp : pat.head? = some d) (hd : d ≠ c) (rest : List Char) :
    pat.isPrefixOf (c :: rest) = false := by
  cases pat with
  | nil => simp at hp
  | cons p ps =>
    have hpd : p = d := by simpa using hp
    subst hpd
    show (p == c && ps.isPrefixOf rest) = false
    rw [beq_eq_false_iff_ne.mpr hd, Bool.false_and]

theorem containsL_replicate_append (pat : List Char) (d c : Char)
    (hp : pat.head? = some d) (hd : d ≠ c) (n : Nat) (l : List Char) :
    containsL pat (List.replicate n c ++ l) = containsL pat l := by
  induction n with
  | zero => rfl
  | succ m ih =>
    rw [List.replicate_succ, List.cons_append]
    show (pat.isPrefixOf (c :: (List.replicate m c ++ l)) ||
      containsL pat (List.replicate m c ++ l)) = containsL pat l
    rw [isPrefixOf_head_ne hp hd, ih, Bool.false_or]

theorem countOcc_replicate_append (pat : List Char) (d c : Char)
    (hp : pat.head? = some d) (hd : d ≠ c) (n : Nat) (l : List Char) :
    countOcc pat (List.replicate n c ++ l) = countOcc pat l := by
  induction n with
  | zero => rfl
  | succ m ih =>
    rw [List.replicate_succ, List.cons_append]
    have hpre := isPrefixOf_head_ne hp hd (List.replicate m c ++ l)
    show countOccA pat (c :: (List.replicate m c ++ l)) 0 = countOcc pat l
    rw [show countOccA pat (c :: (List.replicate m c ++ l)) 0
        = countOccA pat (List.replicate m c ++ l) 0 from by
      simp [countOccA, hpre]]
    exact ih

/-- A well-formed (by the claim's four conditions) MathML string padded to
more than 1,000,000 characters. -/
def c6Base : String := "<math xmlns=\"http://www.w3.org/1998/Math/MathML\"></math>"

def c6Big : String := String.mk (List.replicate 1000000 'a' ++ c6Base.data)

theorem c6Big_length : c6Big.length = 1000056 := by
  show (List.replicate 1000000 'a' ++ c6Base.data).length = 1000056
  rw [List.length_append, List.length_replicate]
  decide

theorem c6Big_data : c6Big.data = List.replicate 1000000 'a' ++ c6Base.data :=
  rfl

/-- Claim C6, counterexample: the code's `validateMathML` also rejects
inputs longer than 1,000,000 characters (and the empty string), a condition
the claim omits. `c6Big` satisfies all four stated conditions yet is
rejected. -/
theorem C6_counterexample :
    specValidMathML c6Big = true ∧ validateMathML c6Big = false := by
  have hopen : containsL "<math".data c6Big.data = containsL "<math".data c6Base.data := by
    rw [c6Big_data]
    exact containsL_replicate_append "<math".data '<' 'a' (by decide) (by decide) _ _
  have hclose : containsL "</math>".data c6Big.data = containsL "</math>".data c6Base.data := by
    rw [c6Big_data]
    exact containsL_replicate_append "</math>".data '<' 'a' (by decide) (by decide) _ _
  have hnsd : containsL ("xmlns=\"http://www.w3.org/1998/Math/MathML\"").data c6Big.data =
      containsL ("xmlns=\"http://www.w3.org/1998/Math/MathML\"").data c6Base.data := by
    rw [c6Big_data]
    exact containsL_replicate_append ("xmlns=\"http://www.w3.org/1998/Math/MathML\"").data 'x' 'a' (by decide) (by decide) _ _
  have hnss : containsL ("xmlns='http://www.w3.org/1998/Math/MathML'").data c6Big.data =
      containsL ("xmlns='http://www.w3.org/1998/Math/MathML'").data c6Base.data := by
    rw [c6Big_data]
    exact containsL_replicate_append ("xmlns='http://www.w3.org/1998/Math/MathML'").data 'x' 'a' (by decide) (by decide) _ _
  have hco : countOcc "<math".data c6Big.data = countOcc "<math".data c6Base.data := by
    rw [c6Big_data]
    exact countOcc_replicate_append "<math".data '<' 'a' (by decide) (by decide) _ _
  have hcc : countOcc "</math>".data c6Big.data = countOcc "</math>".data c6Base.data := by
    rw [c6Big_data]
    exact countOcc_replicate_append "</math>".data '<' 'a' (by decide) (by decide) _ _
  constructor
  · unfold specValidMathML containsSub
    rw [hopen, hclose, hnsd, hnss, hco, hcc]
    decide
  · unfold validateMathML
    have hne : ¬ (c6Big = "") := by
      intro he
      have := c6Big_length
      rw [he] at this
      exact absurd this (by decide)
    rw [if_neg hne]
    have hc : (c6Big.length = 0 || c6Big.length > 1000000) = true := by
      rw [c6Big_length]
      decide
    rw [if_pos hc]

/-- Claim C6, amended: the validation predicate holds iff the four stated
conditions hold *and* the string is nonempty and at most 1,000,000
characters long (the length bounds of src/content.js:2634-2641, which the
claim omits). -/
theorem C6_amended_with_size_bounds (s : String) :
    validateMathML s =
      (decide (s ≠ "") && decide (s.length ≤ 1000000) && specValidMathML s) := by
  unfold validateMathML specValidMathML
  by_cases h0 : s = ""
  · subst h0
    decide
  · rw [if_neg h0]
    have hd0 : (decide (s ≠ "")) = true := decide_eq_true h0
    rw [hd0, Bool.true_and]
    by_cases h2 : s.length > 1000000
    · have hc : (s.length = 0 || s.length > 1000000) = true := by
        simp only [Bool.or_eq_true, decide_eq_true_eq]
        right
        exact h2
      rw [if_pos hc]
      have hle : (decide (s.length ≤ 1000000)) = false :=
        decide_eq_false (by omega)
      rw [hle, Bool.false_and]
    · have hne0 : s.length ≠ 0 :=
        fun hl => h0 (string_eq_empty_of_length_zero hl)
      have hc : (s.length = 0 || s.length > 1000000) = false := by
        simp only [Bool.or_eq_false_iff, decide_eq_false_iff_not]
        exact ⟨hne0, h2⟩
      rw [hc]
      simp only [Bool.false_eq_true, if_false]
      have hle : (decide (s.length ≤ 1000000)) = true :=
        decide_eq_true (by omega)
      rw [hle, Bool.true_and]
      by_cases hm : containsSub s "<math" = true
      · rw [hm]
        simp only [Bool.not_true, Bool.false_eq_true, if_false, Bool.true_and]
      · have hmf : containsSub s "<math" = false :=
          Bool.eq_false_iff.mpr hm
        rw [hmf]
        simp only [Bool.not_false, if_true, Bool.false_and]

/-! ## Claim C7: multi-select copy round trip -/

theorem inner_ok_some {e : Loc} {f c : String}
    (h : getEquationContentPure e f = some c) :
    getEquationContentInner e f = .ok (some c) := by
  unfold getEquationContentPure at h
  cases hi : getEquationContentInner e f with
  | ok v =>
    rw [hi] at h
    have hv : v = some c := h
    rw [hv]
  | error err =>
    rw [hi] at h
    have hv : (none : Option String) = some c := h
    exact absurd hv (by simp)

theorem run_of_pure_some (e : Loc) (f c : String) (st : SessionState)
    (h : getEquationContentPure e f = some c) :
    getEquationContentRun e f st = (some c, st) := by
  unfold getEquationContentRun
  rw [inner_ok_some h]

theorem finalizeContent_ok_some {c0 : Option String} {c : String}
    (h : finalizeContent c0 = .ok (some c)) : c ≠ "" := by
  cases c0 with
  | none => simp [finalizeContent] at h
  | some c0 =>
    simp only [finalizeContent] at h
    by_cases ht : jsTrim c0 ≠ ""
    · rw [if_pos ht] at h
      by_cases hb : (jsTrim c0).length > 100000
      · rw [if_pos hb] at h; exact absurd h (by simp)
      · rw [if_neg hb] at h
        have hce : jsTrim c0 = c := by simpa using h
        rw [← hce]; exact ht
    · rw [if_neg ht] at h; exact absurd h (by simp)

theorem pure_some_ne_empty {e : Loc} {f c : String}
    (h : getEquationContentPure e f = some c) : c ≠ "" := by
  have hi := inner_ok_some h
  unfold getEquationContentInner at hi
  by_cases hel : (!e.el.isElem) = true
  · rw [if_pos hel] at hi; exact absurd hi (by simp)
  · rw [if_neg hel] at hi
    exact finalizeContent_ok_some hi

theorem string_length_pos_of_ne {s : String} (h : s ≠ "") : 0 < s.length :=
  Nat.pos_of_ne_zero (fun hz => h (string_eq_empty_of_length_zero hz))

/-- Claim C7 (confirmed): committing a multi-copy over a selection of three
containers whose extractions succeed (and whose joined payload passes the
clipboard bound) writes exactly one payload — the three contents joined by
a blank line, in selection order — and empties the selection set, leaving
the error counter untouched. -/
theorem C7_multicopy_roundtrip (e1 e2 e3 : Loc) (c1 c2 c3 fmt : String)
    (st : SessionState)
    (h1 : getEquationContentPure e1 fmt = some c1)
    (h2 : getEquationContentPure e2 fmt = some c2)
    (h3 : getEquationContentPure e3 fmt = some c3)
    (hlen : (joinSep "\n\n" [c1, c2, c3]).length ≤ 1000000) :
    copySelectedEquations [e1, e2, e3] fmt st =
      ⟨some (joinSep "\n\n" [c1, c2, c3]), [], st⟩ := by
  have eseq : extractSeq fmt [e1, e2, e3] st = ([c1, c2, c3], st) := by
    simp only [extractSeq, run_of_pure_some e1 fmt c1 st h1,
      run_of_pure_some e2 fmt c2 st h2, run_of_pure_some e3 fmt c3 st h3]
  have hne : joinSep "\n\n" [c1, c2, c3] ≠ "" := by
    intro he
    have h1p := string_length_pos_of_ne (pure_some_ne_empty h1)
    have : (joinSep "\n\n" [c1, c2, c3]).length = 0 := by rw [he]; rfl
    rw [show joinSep "\n\n" [c1, c2, c3]
        = c1 ++ "\n\n" ++ joinSep "\n\n" [c2, c3] from rfl] at this
    rw [String.length_append, String.length_append] at this
    omega
  have hgate : copyToClipboardGate (joinSep "\n\n" [c1, c2, c3]) = .ok () := by
    unfold copyToClipboardGate
    rw [if_neg hne, if_neg (by omega)]
  unfold copySelectedEquations
  simp only [List.isEmpty_cons, Bool.false_eq_true, if_false, eseq,
    List.isEmpty_nil, hgate]
  rfl

/-- Three native MathML containers for the C7 witness. -/
def locW1 : Loc := ⟨[], .elem "math" [] [] [.text "a+b"]⟩

def locW2 : Loc := ⟨[], .elem "math" [] [] [.text "c+d"]⟩

def locW3 : Loc := ⟨[], .elem "math" [] [] [.text "e+f"]⟩

/-- Witness for C7: three concrete containers, unicode format — the payload
is the three contents separated by blank lines and the selection is empty
afterwards. -/
theorem C7_multicopy_roundtrip_witness :
    copySelectedEquations [locW1, locW2, locW3] "unicode" ⟨0, 10⟩ =
      ⟨some (joinSep "\n\n" ["a+b", "c+d", "e+f"]), [], ⟨0, 10⟩⟩ :=
  C7_multicopy_roundtrip locW1 locW2 locW3 "a+b" "c+d" "e+f" "unicode"
    ⟨0, 10⟩ rfl rfl rfl (by decide)

/-! ## Claim C9: unknown formats fall back to the MathML default -/

/-- Claim C9 (confirmed): for every requested format outside
`CONFIG.validFormats`, `getEquationContent` substitutes the default format
(`mathml`) and proceeds — the result (and the session-state effect) is
exactly that of a `mathml` request on the same element. -/
theorem C9_unknown_format_defaults_to_mathml (eq : Loc) (format : String)
    (st : SessionState) (h : validFormats.contains format = false) :
    getEquationContentRun eq format st = getEquationContentRun eq "mathml" st ∧
    getEquationContentPure eq format = getEquationContentPure eq "mathml" := by
  have hr : resolveFormat format = "mathml" := by
    unfold resolveFormat
    rw [h]
    rfl
  have hi : getEquationContentInner eq format =
      getEquationContentInner eq "mathml" := by
    unfold getEquationContentInner
    rw [hr, show resolveFormat "mathml" = "mathml" from rfl]
  constructor
  · unfold getEquationContentRun
    rw [hi]
  · unfold getEquationContentPure
    rw [hi]

/-- Witness for C9 at the unknown format `"bogus"` on a concrete KaTeX
container. -/
theorem C9_unknown_format_witness :
    validFormats.contains "bogus" = false ∧
    getEquationContentPure locAnnot "bogus" =
      getEquationContentPure locAnnot "mathml" :=
  ⟨by decide,
   (C9_unknown_format_defaults_to_mathml locAnnot "bogus" ⟨0, 10⟩
     (by decide)).2⟩

/-! ## Claim C10: `cleanLatex` removes at most one dollar per call -/

theorem getLast?_dropWhile_of_not {p : Char → Bool} :
    ∀ (m : List Char) (d : Char), m.getLast? = some d → p d = false →
      (m.dropWhile p).getLast? = some d
  | [], d, h, _ => by simp at h
  | a :: t, d, h, hp => by
    cases t with
    | nil =>
      have had : a = d := by simpa using h
      subst had
      rw [List.dropWhile_cons, if_neg (by rw [hp]; simp)]
      exact h
    | cons b t2 =>
      have hl : (b :: t2).getLast? = some d := by
        rw [← List.getLast?_cons_cons]
        exact h
      by_cases hpa : p a = true
      · rw [List.dropWhile_cons, if_pos hpa]
        exact getLast?_dropWhile_of_not (b :: t2) d hl hp
      · rw [List.dropWhile_cons, if_neg hpa]
        exact h

theorem trimList_getLast_dollar {m : List Char} (h : m.getLast? = some '$') :
    (trimList m).getLast? = some '$' := by
  unfold trimList
  rw [List.getLast?_reverse]
  have h1 : (m.dropWhile isJsWs).getLast? = some '$' :=
    getLast?_dropWhile_of_not m '$' h (by decide)
  have h2 : ((m.dropWhile isJsWs).reverse).head? = some '$' := by
    rw [List.head?_reverse]
    exact h1
  cases hx : (m.dropWhile isJsWs).reverse with
  | nil => rw [hx] at h2; simp at h2
  | cons c r =>
    rw [hx] at h2
    have hc : c = '$' := by simpa using h2
    subst hc
    rw [List.dropWhile_cons, if_neg (by decide)]
    rfl

/-- Claim C10, counterexample: the one-character input `"$"` both starts
and ends with `$`, yet `cleanLatex "$"` is the empty string — no trailing
`$` remains, because the leading and trailing dollar are the same
character. -/
theorem C10_counterexample :
    (("$" : String).data.head? = some '$') ∧
    (("$" : String).data.getLast? = some '$') ∧
    cleanLatex "$" = "" ∧
    ¬ ((cleanLatex "$").data.getLast? = some '$') := by
  exact ⟨by decide, by decide, rfl, by decide⟩

/-- Claim C10, amended: for every input of length at least 2 that starts
and ends with `$`, `cleanLatex` removes only the leading `$` (the result is
the trim of the input without its first character — the `^\$|\$$`
substitution is applied to the first match only) and the trailing `$`
remains in the returned LaTeX. For the one-character input `"$"` the two
conditions pick out the same character and the result is empty. -/
theorem C10_amended_strip_leading_only (s : String)
    (h1 : s.data.head? = some '$') (h2 : s.data.getLast? = some '$')
    (hlen : 2 ≤ s.data.length) :
    cleanLatex s = jsTrim (String.mk s.data.tail) ∧
    (cleanLatex s).data.getLast? = some '$' := by
  have he : cleanLatexL s.data = trimList s.data.tail := by
    unfold cleanLatexL
    rw [if_pos h1]
  constructor
  · show String.mk (cleanLatexL s.data) = _
    rw [he]
    rfl
  · show (String.mk (cleanLatexL s.data)).data.getLast? = some '$'
    rw [show (String.mk (cleanLatexL s.data)).data = cleanLatexL s.data
        from rfl, he]
    apply trimList_getLast_dollar
    cases hd : s.data with
    | nil => rw [hd] at hlen; exact absurd hlen (by decide)
    | cons a t =>
      cases t with
      | nil => rw [hd] at hlen; simp at hlen
      | cons b t2 =>
        rw [hd] at h2
        rw [List.getLast?_cons_cons] at h2
        exact h2

/-- Witness for the amended C10 at `"$x$"`: the result is `"x$"` — one
dollar removed, the trailing one kept. -/
theorem C10_amended_witness :
    (("$x$" : String).data.head? = some '$' ∧
     ("$x$" : String).data.getLast? = some '$' ∧
     2 ≤ ("$x$" : String).data.length) ∧
    cleanLatex "$x$" = jsTrim (String.mk ("$x$" : String).data.tail) ∧
    (cleanLatex "$x$").data.getLast? = some '$' :=
  ⟨⟨by decide, by decide, by decide⟩,
   C10_amended_strip_leading_only "$x$" (by decide) (by decide) (by decide)⟩

/-! ## Claim C8: scan idempotence -/

/-- The container a scanned element resolves to (for `.katex-html` elements
the `.katex` ancestor, otherwise `findMathContainer`) — a function of the
document structure only, never of the marks. -/
def containerOfD (d : Dom) (i : Nat) : Option Nat :=
  if dHasClass d i "katex-html" then
    closestD d (fun j => dHasClass d j "katex") i
  else findMathContainerD d i

/-- An element is settled when it is marked, or when every container it
resolves to is marked — precisely the condition under which `processElem`
does nothing to it. -/
def settled (d : Dom) (m : List Nat) (i : Nat) : Prop :=
  m.contains i = true ∨ (∀ j, containerOfD d i = some j → m.contains j = true)

theorem processElem_marks_mono {d : Dom} {st : ScanState} {i x : Nat}
    (h : st.marks.contains x = true) :
    (processElem d st i).marks.contains x = true := by
  unfold processElem
  split
  · split
    · exact h
    · split
      · exact h
      · split
        · exact h
        · simp only [List.contains_cons, Bool.or_eq_true] at h ⊢
          right; right; exact h
  · split
    · exact h
    · split
      · exact h
      · split
        · exact h
        · simp only [List.contains_cons, Bool.or_eq_true] at h ⊢
          right; exact h

theorem foldl_marks_mono {d : Dom} (L : List Nat) :
    ∀ (st : ScanState) (x : Nat), st.marks.contains x = true →
      (L.foldl (processElem d) st).marks.contains x = true := by
  induction L with
  | nil => intro st x h; exact h
  | cons a L2 ih =>
    intro st x h
    exact ih (processElem d st a) x (processElem_marks_mono h)

theorem settled_mono {d : Dom} {m : List Nat} {i : Nat}
    (hs : settled d m i) {m2 : List Nat}
    (hmono : ∀ x, m.contains x = true → m2.contains x = true) :
    settled d m2 i := by
  cases hs with
  | inl h => exact Or.inl (hmono i h)
  | inr h => exact Or.inr (fun j hj => hmono j (h j hj))

theorem processElem_settles {d : Dom} (st : ScanState) (i : Nat) :
    settled d (processElem d st i).marks i := by
  unfold processElem
  split
  next hk =>
    split
    next hmi => exact Or.inl hmi
    next hmi =>
      split
      next hc =>
        refine Or.inr (fun j hj => ?_)
        unfold containerOfD at hj
        rw [if_pos hk, hc] at hj
        cases hj
      next j hc =>
        split
        next hmj =>
          refine Or.inr (fun j2 hj2 => ?_)
          unfold containerOfD at hj2
          rw [if_pos hk, hc] at hj2
          cases hj2
          exact hmj
        next hmj =>
          refine Or.inl ?_
          simp [List.contains_cons]
  next hk =>
    split
    next hmi => exact Or.inl hmi
    next hmi =>
      split
      next hc =>
        refine Or.inr (fun j hj => ?_)
        unfold containerOfD at hj
        rw [if_neg hk, hc] at hj
        cases hj
      next j hc =>
        split
        next hmj =>
          refine Or.inr (fun j2 hj2 => ?_)
          unfold containerOfD at hj2
          rw [if_neg hk, hc] at hj2
          cases hj2
          exact hmj
        next hmj =>
          refine Or.inr (fun j2 hj2 => ?_)
          unfold containerOfD at hj2
          rw [if_neg hk, hc] at hj2
          cases hj2
          simp [List.contains_cons]

theorem foldl_settles {d : Dom} (L : List Nat) :
    ∀ (st : ScanState) (i : Nat), i ∈ L →
      settled d ((L.foldl (processElem d) st)).marks i := by
  induction L with
  | nil => intro st i h; cases h
  | cons a L2 ih =>
    intro st i h
    cases List.mem_cons.mp h with
    | inl hia =>
      subst hia
      by_cases hL : i ∈ L2
      · exact ih (processElem d st i) i hL
      · exact settled_mono (processElem_settles st i)
          (fun x hx => foldl_marks_mono L2 _ x hx)
    | inr hL => exact ih (processElem d st a) i hL

theorem processElem_noop {d : Dom} {st : ScanState} {i : Nat}
    (hs : settled d st.marks i) : processElem d st i = st := by
  unfold processElem
  split
  next hk =>
    split
    next hmi => rfl
    next hmi =>
      split
      next hc => rfl
      next j hc =>
        cases hs with
        | inl h => exact absurd h hmi
        | inr h =>
          have hmj : st.marks.contains j = true := by
            apply h
            unfold containerOfD
            rw [if_pos hk, hc]
          rw [if_pos hmj]
  next hk =>
    split
    next hmi => rfl
    next hmi =>
      split
      next hc => rfl
      next j hc =>
        cases hs with
        | inl h => exact absurd h hmi
        | inr h =>
          have hmj : st.marks.contains j = true := by
            apply h
            unfold containerOfD
            rw [if_neg hk, hc]
          rw [if_pos hmj]

theorem foldl_noop {d : Dom} (L : List Nat) (st : ScanState)
    (h : ∀ i ∈ L, settled d st.marks i) :
    L.foldl (processElem d) st = st := by
  induction L with
  | nil => rfl
  | cons a L2 ih =>
    show (L2.foldl (processElem d) (processElem d st a)) = st
    rw [processElem_noop (h a (List.mem_cons_self a L2))]
    exact ih (fun i hi => h i (List.mem_cons_of_mem a hi))

theorem runPhase_marks_mono {d : Dom} {p : Nat → Bool} {st : ScanState}
    {x : Nat} (h : st.marks.contains x = true) :
    (runPhase d p st).marks.contains x = true :=
  foldl_marks_mono _ st x h

theorem runPhase_settles {d : Dom} (p : Nat → Bool) (st : ScanState)
    (i : Nat) (hp : p i = true) (hlt : i < d.length) :
    settled d (runPhase d p st).marks i := by
  by_cases hm : st.marks.contains i = true
  · exact settled_mono (Or.inl hm) (fun x hx => runPhase_marks_mono hx)
  · have hmem : i ∈ selectAll d st.marks p := by
      unfold selectAll
      rw [List.mem_filter]
      refine ⟨List.mem_range.mpr hlt, ?_⟩
      simp only [Bool.and_eq_true, Bool.not_eq_true']
      exact ⟨hp, Bool.eq_false_iff.mpr hm⟩
    exact foldl_settles _ st i hmem

theorem runPhase_preserves_settled {d : Dom} {p : Nat → Bool}
    {st : ScanState} {i : Nat} (hs : settled d st.marks i) :
    settled d (runPhase d p st).marks i :=
  settled_mono hs (fun _ hx => runPhase_marks_mono hx)

theorem runPhase_noop (d : Dom) (p : Nat → Bool) (st : ScanState)
    (h : ∀ i, p i = true → i < d.length → settled d st.marks i) :
    runPhase d p st = st := by
  unfold runPhase
  apply foldl_noop
  intro i hi
  unfold selectAll at hi
  rw [List.mem_filter] at hi
  obtain ⟨hr, hcond⟩ := hi
  simp only [Bool.and_eq_true] at hcond
  exact h i hcond.1 (List.mem_range.mp hr)

theorem processExisting_expand (d : Dom) (m : List Nat) :
    processExistingEquationsD d m =
      runPhase d (pDataMath d) (runPhase d (pMathTag d)
        (runPhase d (pMjxContainer d) (runPhase d (pMjxChtml d)
          (runPhase d (pMathJax d) (runPhase d (pKatexHtml d) ⟨m, []⟩))))) :=
  rfl

/-- An element one of the six scan selectors can return. -/
def selectableD (d : Dom) (i : Nat) : Prop :=
  pKatexHtml d i = true ∨ pMathJax d i = true ∨ pMjxChtml d i = true ∨
  pMjxContainer d i = true ∨ pMathTag d i = true ∨ pDataMath d i = true

/-- After one full scan, every in-document selectable element is settled:
it is marked, or every container it resolves to is marked. -/
theorem scan_settles_all (d : Dom) (m : List Nat) (i : Nat)
    (hlt : i < d.length) (hsel : selectableD d i) :
    settled d (processExistingEquationsD d m).marks i := by
  rw [processExisting_expand]
  rcases hsel with h | h | h | h | h | h
  · exact runPhase_preserves_settled (runPhase_preserves_settled
      (runPhase_preserves_settled (runPhase_preserves_settled
        (runPhase_preserves_settled (runPhase_settles _ _ i h hlt)))))
  · exact runPhase_preserves_settled (runPhase_preserves_settled
      (runPhase_preserves_settled (runPhase_preserves_settled
        (runPhase_settles _ _ i h hlt))))
  · exact runPhase_preserves_settled (runPhase_preserves_settled
      (runPhase_preserves_settled (runPhase_settles _ _ i h hlt)))
  · exact runPhase_preserves_settled (runPhase_preserves_settled
      (runPhase_settles _ _ i h hlt))
  · exact runPhase_preserves_settled (runPhase_settles _ _ i h hlt)
  · exact runPhase_settles _ _ i h hlt

theorem scan_second_run_fixed (d : Dom) (m : List Nat) :
    processExistingEquationsD d ((processExistingEquationsD d m).marks) =
      ⟨(processExistingEquationsD d m).marks, []⟩ := by
  rw [processExisting_expand d ((processExistingEquationsD d m).marks)]
  rw [runPhase_noop d (pKatexHtml d)
    ⟨(processExistingEquationsD d m).marks, []⟩
    (fun i hp hlt => scan_settles_all d m i hlt (Or.inl hp))]
  rw [runPhase_noop d (pMathJax d)
    ⟨(processExistingEquationsD d m).marks, []⟩
    (fun i hp hlt => scan_settles_all d m i hlt (Or.inr (Or.inl hp)))]
  rw [runPhase_noop d (pMjxChtml d)
    ⟨(processExistingEquationsD d m).marks, []⟩
    (fun i hp hlt => scan_settles_all d m i hlt (Or.inr (Or.inr (Or.inl hp))))]
  rw [runPhase_noop d (pMjxContainer d)
    ⟨(processExistingEquationsD d m).marks, []⟩
    (fun i hp hlt =>
      scan_settles_all d m i hlt (Or.inr (Or.inr (Or.inr (Or.inl hp)))))]
  rw [runPhase_noop d (pMathTag d)
    ⟨(processExistingEquationsD d m).marks, []⟩
    (fun i hp hlt =>
      scan_settles_all d m i hlt
        (Or.inr (Or.inr (Or.inr (Or.inr (Or.inl hp))))))]
  rw [runPhase_noop d (pDataMath d)
    ⟨(processExistingEquationsD d m).marks, []⟩
    (fun i hp hlt =>
      scan_settles_all d m i hlt
        (Or.inr (Or.inr (Or.inr (Or.inr (Or.inr hp))))))]

/-- Claim C8 (confirmed): the detection scan is idempotent — starting from
any marks (in particular none), a second scan immediately after a first one
sets up no container: a node already marked, or whose resolved container is
already marked (or resolves to no container), is never set up or tagged
again. -/
theorem C8_scan_idempotent (d : Dom) (m : List Nat) :
    (scanD d (scanD d m).2).1 = [] := by
  show (processExistingEquationsD d
    ((processExistingEquationsD d m).marks)).setups = []
  rw [scan_second_run_fixed]
